import Mathlib

/-!
Shallow embedding of the order-placement core of the e-commerce backend
(controllers `createOrder`, `cancelOrder`, `addToCart`; email service
`sendEmail`).  Database rows are Lean structures, tables are lists, and
each controller is a pure function from a database state (plus the
request data that survives validation) to a new state together with an
`Except` result.  Prisma's `@default(auto())` object ids are modelled by
`Nat` ids drawn from explicit counters in the state.  `Float` prices are
modelled by `ℚ`.
-/

/-- Price values (`Float` in the Prisma schema) are modelled as rationals. -/
abbrev Price := ℚ

/-- Prisma model `Product` (the fields the order core reads): id, title,
price and the `Int` stock counter. -/
structure Product where
  id : Nat
  title : String
  price : Price
  stock : Int
deriving DecidableEq

/-- Prisma model `CartItem`: quantity is a positive integer by the Zod
validation (`z.number().int().positive()`), so it is carried as a `Nat`. -/
structure CartItem where
  id : Nat
  productId : Nat
  quantity : Nat
  price : Price
deriving DecidableEq

/-- Prisma model `Cart`; `userId` is `@unique`, and the cart exclusively
owns its items (`cartId` foreign key is encoded by nesting). -/
structure Cart where
  id : Nat
  userId : Nat
  items : List CartItem
deriving DecidableEq

/-- Prisma enum `OrderStatus`. -/
inductive OrderStatus where
  | PENDING
  | PROCESSING
  | SHIPPED
  | DELIVERED
  | CANCELLED
deriving DecidableEq

/-- Prisma model `Order` (line items live in the `OrderItem` table,
keyed by `orderId`). -/
structure Order where
  id : Nat
  userId : Nat
  totalAmount : Price
  status : OrderStatus
  shippingAddress : String
  paymentMethod : String
deriving DecidableEq

/-- Prisma model `OrderItem`: an immutable snapshot of one product line. -/
structure OrderItem where
  orderId : Nat
  productId : Nat
  quantity : Nat
  price : Price
deriving DecidableEq

/-- The database state shared by all controllers, with the id counters
that model `@default(auto())`. -/
structure DB where
  products : List Product
  carts : List Cart
  orders : List Order
  orderItems : List OrderItem
  nextCartId : Nat
  nextCartItemId : Nat
  nextOrderId : Nat
deriving DecidableEq

/-- The error classes raised by the controllers (`src/utils/appError`).
`InternalError` stands for the uncaught TypeError the source would throw
when a cart item references a product row that no longer exists (the
`asyncHandler` forwards the exception before any mutation happens). -/
inductive ApiError where
  | ValidationError (message : String)
  | NotFoundError (message : String)
  | InternalError
deriving DecidableEq

/-- `prisma.product.findUnique({ where: { id } })`. -/
def findProduct (db : DB) (pid : Nat) : Option Product :=
  db.products.find? (fun p => p.id == pid)

/-- `prisma.cart.findUnique({ where: { userId } })` (`userId` is unique). -/
def findCart (db : DB) (uid : Nat) : Option Cart :=
  db.carts.find? (fun c => c.userId == uid)

/-- `prisma.order.findFirst({ where: { id, userId } })`. -/
def findOrder (db : DB) (oid : Nat) (uid : Nat) : Option Order :=
  db.orders.find? (fun o => o.id == oid && o.userId == uid)

/-- The `include: { items: true }` join on an order: all order items
with the given `orderId`. -/
def itemsOfOrder (db : DB) (oid : Nat) : List OrderItem :=
  db.orderItems.filter (fun it => it.orderId == oid)

/-- `prisma.product.update({ where: { id: pid }, data: { stock: { increment
or decrement } } })`: adds `delta` to the stock of the row(s) with id `pid`. -/
def updateStock (ps : List Product) (pid : Nat) (delta : Int) : List Product :=
  ps.map (fun p => if p.id == pid then { p with stock := p.stock + delta } else p)

/-- Outcome of the stock-check loop of `createOrder` (lines 512-520):
`ok` when every item fits, `insufficient p item` for the first item whose
quantity exceeds its product's live stock, `missing` when a cart item's
product row is gone (the source would throw dereferencing `item.product`). -/
inductive StockCheck where
  | ok
  | missing
  | insufficient (p : Product) (item : CartItem)
deriving DecidableEq

/-- The `for (const item of cart.items)` stock check of `createOrder`:
stops at the first item with `item.quantity > item.product.stock`. -/
def checkStock (db : DB) : List CartItem → StockCheck
  | [] => .ok
  | item :: rest =>
    match findProduct db item.productId with
    | none => .missing
    | some p =>
      if (item.quantity : Int) > p.stock then .insufficient p item
      else checkStock db rest

/-- The message of the `ValidationError` thrown by the stock check:
`` `${title} has only ${stock} items in stock, but you requested ${qty}` ``. -/
def insufficientStockMsg (title : String) (stock : Int) (requested : Nat) : String :=
  title ++ " has only " ++ toString stock ++
    " items in stock, but you requested " ++ toString requested

/-- `cart.items.reduce((sum, item) => sum + item.price * item.quantity, 0)`. -/
def cartTotal (items : List CartItem) : Price :=
  items.foldl (fun sum item => sum + item.price * (item.quantity : Price)) 0

/-- The order-item row `tx.orderItem.create` builds from a cart item. -/
def mkOrderItem (oid : Nat) (item : CartItem) : OrderItem :=
  { orderId := oid, productId := item.productId,
    quantity := item.quantity, price := item.price }

/-- `items.map (mkOrderItem oid)`: the line items the transaction creates. -/
def orderItemsFor (oid : Nat) (items : List CartItem) : List OrderItem :=
  items.map (mkOrderItem oid)

/-- The `for (const item of cart.items)` body of the `createOrder`
transaction: per item, create an order item and decrement the product's
stock, in source order. -/
def txLoop (oid : Nat) : List CartItem → List OrderItem → List Product →
    List OrderItem × List Product
  | [], ois, ps => (ois, ps)
  | item :: rest, ois, ps =>
    txLoop oid rest (ois ++ [mkOrderItem oid item])
      (updateStock ps item.productId (-(item.quantity : Int)))

/-- `tx.cartItem.deleteMany({ where: { cartId } })`. -/
def clearCartItems (carts : List Cart) (cid : Nat) : List Cart :=
  carts.map (fun c => if c.id == cid then { c with items := [] } else c)

/-- `sendEmail` of the email service: the provider call (`sgMail.send`)
either succeeds or throws, and the surrounding try/catch turns every
outcome into a `Bool` — `true` on delivery, `false` on a logged failure.
No exception ever escapes. -/
def sendEmail (providerOutcome : Except String Unit) : Bool :=
  match providerOutcome with
  | .ok _ => true
  | .error _ => false

/-- `createOrder` (authController lines 486-603).  Takes the state, the
authenticated user id, the raw request fields checked by `validateOrder`
(Zod: both strings nonempty), and the email provider's outcome for the
post-transaction confirmation email (whose return value the source
ignores).  Returns the new state and either the created order or the
error passed to `next`. -/
def createOrder (db : DB) (uid : Nat) (shippingAddress paymentMethod : String)
    (emailOutcome : Except String Unit) : DB × Except ApiError Order :=
  if shippingAddress = "" then
    (db, .error (.ValidationError ("Shipping address is required")))
  else if paymentMethod = "" then
    (db, .error (.ValidationError ("Payment method is required")))
  else
    match findCart db uid with
    | none => (db, .error (.ValidationError ("Cart is empty")))
    | some cart =>
      if cart.items.length = 0 then
        (db, .error (.ValidationError ("Cart is empty")))
      else
        match checkStock db cart.items with
        | .missing => (db, .error .InternalError)
        | .insufficient p item =>
          (db, .error (.ValidationError
            (insufficientStockMsg p.title p.stock item.quantity)))
        | .ok =>
          let totalAmount := cartTotal cart.items
          let newOrder : Order :=
            { id := db.nextOrderId, userId := uid, totalAmount := totalAmount,
              status := .PENDING, shippingAddress := shippingAddress,
              paymentMethod := paymentMethod }
          let txOut := txLoop newOrder.id cart.items db.orderItems db.products
          let db2 : DB :=
            { db with
              orders := db.orders ++ [newOrder],
              orderItems := txOut.1,
              products := txOut.2,
              carts := clearCartItems db.carts cart.id,
              nextOrderId := db.nextOrderId + 1 }
          let _emailSent := sendEmail emailOutcome
          (db2, .ok newOrder)

/-- `cancelOrder` (authController lines 677-740): find the caller's
order (with its items), reject non-cancellable statuses, then in one
transaction set the status to CANCELLED and increment each line item's
product stock; finally fire the status email, ignoring its result. -/
def cancelOrder (db : DB) (uid : Nat) (oid : Nat)
    (emailOutcome : Except String Unit) : DB × Except ApiError Order :=
  match findOrder db oid uid with
  | none => (db, .error (.NotFoundError ("Order not found")))
  | some order =>
    if order.status ≠ .PENDING ∧ order.status ≠ .PROCESSING then
      (db, .error (.ValidationError ("Order cannot be cancelled at this stage")))
    else
      let items := itemsOfOrder db oid
      let orders2 := db.orders.map
        (fun o => if o.id == oid then { o with status := .CANCELLED } else o)
      let products2 := items.foldl
        (fun acc it => updateStock acc it.productId (it.quantity : Int)) db.products
      let db2 : DB := { db with orders := orders2, products := products2 }
      let _emailSent := sendEmail emailOutcome
      (db2, .ok { order with status := .CANCELLED })

/-- `addToCart` (cart controller lines 68-211).  `quantity` already passed
the Zod `int().positive()` check shape-wise, so it is a `Nat`; the
positivity requirement itself is re-checked here to mirror the
validation.  Get-or-create the cart; if an item for the product exists,
add the quantities and overwrite the snapshot price with the product's
current price, else create a fresh item. -/
def addToCart (db : DB) (uid : Nat) (productId : Nat) (quantity : Nat) :
    DB × Except ApiError Unit :=
  if quantity = 0 then
    (db, .error (.ValidationError ("Quantity must be positive")))
  else
    match findProduct db productId with
    | none => (db, .error (.NotFoundError ("Product not found")))
    | some product =>
      if (quantity : Int) > product.stock then
        (db, .error (.ValidationError
          ("Not enough stock. Only " ++ toString product.stock ++ " available.")))
      else
        let got :=
          match findCart db uid with
          | some c => (c, db)
          | none =>
            let c : Cart := { id := db.nextCartId, userId := uid, items := [] }
            (c, { db with carts := db.carts ++ [c], nextCartId := db.nextCartId + 1 })
        let cart := got.1
        let db1 := got.2
        match cart.items.find? (fun it => it.productId == productId) with
        | some existingItem =>
          let newQuantity := existingItem.quantity + quantity
          if (newQuantity : Int) > product.stock then
            (db1, .error (.ValidationError
              ("Cannot add more. Only " ++ toString product.stock ++ " available.")))
          else
            let carts2 := db1.carts.map (fun c =>
              { c with items := c.items.map (fun it =>
                  if it.id == existingItem.id then
                    { it with quantity := newQuantity, price := product.price }
                  else it) })
            ({ db1 with carts := carts2 }, .ok ())
        | none =>
          let newItem : CartItem :=
            { id := db1.nextCartItemId, productId := productId,
              quantity := quantity, price := product.price }
          let carts2 := db1.carts.map (fun c =>
            if c.id == cart.id then { c with items := c.items ++ [newItem] } else c)
          ({ db1 with carts := carts2, nextCartItemId := db1.nextCartItemId + 1 },
            .ok ())

/-- One user-facing operation of the order core, for reasoning about
arbitrary call sequences. -/
inductive Op where
  | place (uid : Nat) (shippingAddress paymentMethod : String)
  | cancel (uid : Nat) (oid : Nat)

/-- The state reached after one operation (the result value is dropped;
a failed call leaves the state it returns). -/
def applyOp (db : DB) : Op → DB
  | .place uid a pm => (createOrder db uid a pm (.ok ())).1
  | .cancel uid oid => (cancelOrder db uid oid (.ok ())).1

/-- The state reached after a finite sequence of operations. -/
def runOps (db : DB) (ops : List Op) : DB :=
  ops.foldl applyOp db

/-- A list of per-product stock deltas, as `(productId, delta)` pairs. -/
abbrev Deltas := List (Nat × Int)

/-- Apply a list of stock deltas left to right. -/
def applyDeltas (ps : List Product) (ds : Deltas) : List Product :=
  ds.foldl (fun acc d => updateStock acc d.1 d.2) ps

/-- The net stock delta a delta list applies to one product id. -/
def deltaSum (ds : Deltas) (pid : Nat) : Int :=
  ((ds.filter (fun d => d.1 == pid)).map (fun d => d.2)).sum

/-- The deltas of the `createOrder` transaction: each cart item
decrements its product's stock by its quantity. -/
def negDeltas (items : List CartItem) : Deltas :=
  items.map (fun it => (it.productId, -(it.quantity : Int)))

/-- The deltas of the `cancelOrder` transaction: each order item
increments its product's stock by its quantity. -/
def posDeltas (items : List OrderItem) : Deltas :=
  items.map (fun it => (it.productId, (it.quantity : Int)))

/-- Total quantity a cart requests of one product. -/
def cartQtyOf (items : List CartItem) (pid : Nat) : Nat :=
  ((items.filter (fun it => it.productId == pid)).map (fun it => it.quantity)).sum

/-- Total quantity of one product across a list of order items. -/
def orderQtyOf (items : List OrderItem) (pid : Nat) : Nat :=
  ((items.filter (fun it => it.productId == pid)).map (fun it => it.quantity)).sum

/-- Sum of price × quantity over a list of order items. -/
def sumItems (items : List OrderItem) : Price :=
  (items.map (fun it => it.price * (it.quantity : Price))).sum

/-- Every stock in the catalog is non-negative. -/
def stocksNonneg (db : DB) : Prop :=
  ∀ p ∈ db.products, 0 ≤ p.stock

/-- Product ids are pairwise distinct (they are the primary key). -/
def productsNodup (db : DB) : Prop :=
  (db.products.map (fun p => p.id)).Nodup

/-- No cart holds two items for the same product (`addToCart` merges a
repeated product into the existing item instead of creating a second
row, so every reachable cart satisfies this). -/
def cartsNodup (db : DB) : Prop :=
  ∀ c ∈ db.carts, (c.items.map (fun it => it.productId)).Nodup

/-- The id counter dominates every order id and every order item's
`orderId` (true of any state whose orders were created by `createOrder`). -/
def freshInv (db : DB) : Prop :=
  (∀ o ∈ db.orders, o.id < db.nextOrderId) ∧
    (∀ it ∈ db.orderItems, it.orderId < db.nextOrderId)

/-- Every stored order's `totalAmount` equals the sum of price × quantity
over its line items. -/
def totalsInv (db : DB) : Prop :=
  ∀ o ∈ db.orders, o.totalAmount = sumItems (itemsOfOrder db o.id)

/-- The order `createOrder` materialises on success (characterisation;
proved equal to the success branch in `createOrder_success_shape`). -/
def newOrderOf (db : DB) (uid : Nat) (a pm : String) (cart : Cart) : Order :=
  { id := db.nextOrderId, userId := uid, totalAmount := cartTotal cart.items,
    status := .PENDING, shippingAddress := a, paymentMethod := pm }

/-- The state `createOrder` commits on success (characterisation;
proved equal to the success branch in `createOrder_success_shape`). -/
def successDB (db : DB) (uid : Nat) (a pm : String) (cart : Cart) : DB :=
  { db with
    orders := db.orders ++ [newOrderOf db uid a pm cart],
    orderItems := db.orderItems ++ orderItemsFor db.nextOrderId cart.items,
    products := applyDeltas db.products (negDeltas cart.items),
    carts := clearCartItems db.carts cart.id,
    nextOrderId := db.nextOrderId + 1 }

/-- The state `cancelOrder` commits on success (characterisation;
proved equal to the success branch in `cancelOrder_success_shape`). -/
def cancelledDB (db : DB) (oid : Nat) : DB :=
  { db with
    orders := db.orders.map
      (fun o => if o.id == oid then { o with status := .CANCELLED } else o),
    products := applyDeltas db.products (posDeltas (itemsOfOrder db oid)) }

/-- Witness catalog row ProductA (catalog price 20, cart snapshot 10). -/
def prodA1 : Product := { id := 1, title := "A", price := 20, stock := 5 }

/-- Witness catalog row ProductB (catalog price 7, cart snapshot 5). -/
def prodB1 : Product := { id := 2, title := "B", price := 7, stock := 5 }

/-- Witness cart item for ProductA: qty 2 at snapshot price 10. -/
def itA1 : CartItem := { id := 1, productId := 1, quantity := 2, price := 10 }

/-- Witness cart item for ProductB: qty 1 at snapshot price 5. -/
def itB1 : CartItem := { id := 2, productId := 2, quantity := 1, price := 5 }

/-- Witness cart holding the two items above for user 1. -/
def cart1 : Cart := { id := 1, userId := 1, items := [itA1, itB1] }

/-- Witness state for the two-item checkout scenario of §8. -/
def db1 : DB :=
  { products := [prodA1, prodB1], carts := [cart1], orders := [],
    orderItems := [], nextCartId := 2, nextCartItemId := 3, nextOrderId := 1 }

/-- A cart requesting 6 units of the product with the given id. -/
def widgetCart (pid : Nat) : Cart :=
  { id := 1, userId := 1,
    items := [{ id := 1, productId := pid, quantity := 6, price := 3 }] }

/-- A state with one product "Widget" (stock 5) under the given id and a
cart requesting 6 of it; used to probe the insufficient-stock error. -/
def widgetDB (pid : Nat) : DB :=
  { products := [{ id := pid, title := "Widget", price := 3, stock := 5 }],
    carts := [widgetCart pid], orders := [], orderItems := [],
    nextCartId := 2, nextCartItemId := 2, nextOrderId := 1 }

/-- Witness order record in status PENDING (2 units of product 1). -/
def orderPending : Order :=
  { id := 1, userId := 1, totalAmount := 20, status := .PENDING,
    shippingAddress := "s", paymentMethod := "c" }

/-- Witness order record in status SHIPPED. -/
def orderShipped : Order :=
  { orderPending with status := .SHIPPED }

/-- Witness state with one PENDING order (2 units of product 1 reserved,
stock currently 3). -/
def dbPending : DB :=
  { products := [{ id := 1, title := "A", price := 10, stock := 3 }],
    carts := [],
    orders := [orderPending],
    orderItems := [{ orderId := 1, productId := 1, quantity := 2, price := 10 }],
    nextCartId := 1, nextCartItemId := 1, nextOrderId := 2 }

/-- Witness state with one SHIPPED order. -/
def dbShipped : DB :=
  { dbPending with orders := [orderShipped] }

/-- Witness cart for `addToCart`: already holds 3 units of product 1 at
stale snapshot price 9. -/
def cartAdd : Cart :=
  { id := 1, userId := 1,
    items := [{ id := 1, productId := 1, quantity := 3, price := 9 }] }

/-- Witness state for `addToCart`: the catalog price of product 1 is now
15 and its stock is 10. -/
def dbAddCart : DB :=
  { products := [{ id := 1, title := "A", price := 15, stock := 10 }],
    carts := [cartAdd],
    orders := [], orderItems := [],
    nextCartId := 2, nextCartItemId := 2, nextOrderId := 1 }

/-- The per-item update `addToCart` performs when the product is already
in the cart: merge quantities and refresh the snapshot price (statement
abbreviation; `addToCart` is the transcription). -/
def bumpItem (existingId : Nat) (newQuantity : Nat) (newPrice : Price)
    (it : CartItem) : CartItem :=
  if it.id == existingId then
    { it with quantity := newQuantity, price := newPrice }
  else it

/-- A cart of the given user requesting 1 unit of product 1. -/
def lastUnitCart (uid cid itemId : Nat) : Cart :=
  { id := cid, userId := uid,
    items := [{ id := itemId, productId := 1, quantity := 1, price := 4 }] }

/-- A state with a single unit of product 1 in stock and two users whose
carts each request that last unit. -/
def dbLastUnit : DB :=
  { products := [{ id := 1, title := "L", price := 4, stock := 1 }],
    carts := [lastUnitCart 1 1 1, lastUnitCart 2 2 2],
    orders := [], orderItems := [],
    nextCartId := 3, nextCartItemId := 3, nextOrderId := 1 }

theorem find?_map_comm {α : Type} (f : α → α) (p : α → Bool)
    (hp : ∀ a, p (f a) = p a) :
    ∀ l : List α, (l.map f).find? p = (l.find? p).map f := by
  intro l
  induction l with
  | nil => rfl
  | cons a l ih =>
    by_cases h : p a = true
    · rw [List.map_cons, List.find?_cons_of_pos _ (by rw [hp]; exact h),
        List.find?_cons_of_pos _ h, Option.map_some']
    · rw [List.map_cons, List.find?_cons_of_neg _ (by rw [hp]; exact h),
        List.find?_cons_of_neg _ h, ih]

theorem deltaSum_nil (pid : Nat) : deltaSum [] pid = 0 := rfl

theorem deltaSum_cons (x : Nat) (d : Int) (ds : Deltas) (pid : Nat) :
    deltaSum ((x, d) :: ds) pid =
      (if x == pid then d else 0) + deltaSum ds pid := by
  by_cases h : (x == pid) = true
  · simp [deltaSum, List.filter_cons, h]
  · simp [deltaSum, List.filter_cons, h]

theorem applyDeltas_eq (ds : Deltas) :
    ∀ ps : List Product,
      applyDeltas ps ds =
        ps.map (fun p => { p with stock := p.stock + deltaSum ds p.id }) := by
  induction ds with
  | nil =>
    intro ps
    have h : ∀ p : Product,
        ({ p with stock := p.stock + deltaSum [] p.id } : Product) = p := by
      intro p
      simp [deltaSum_nil]
    simp only [applyDeltas, List.foldl_nil, h, List.map_id']
  | cons d ds ih =>
    intro ps
    obtain ⟨x, dv⟩ := d
    have step : applyDeltas ps ((x, dv) :: ds) = applyDeltas (updateStock ps x dv) ds := rfl
    rw [step, ih, updateStock, List.map_map]
    apply List.map_congr_left
    intro p _
    by_cases h : (p.id == x) = true
    · have hx : (x == p.id) = true := by
        rw [Nat.beq_eq_true_eq] at h ⊢
        omega
      simp only [Function.comp_apply, if_pos h, deltaSum_cons, if_pos hx, add_assoc]
    · have hne : p.id ≠ x := by
        rw [Nat.beq_eq_true_eq] at h
        exact h
      have hx : (x == p.id) = false := by
        rw [beq_eq_false_iff_ne]
        omega
      simp [deltaSum_cons, hx, hne]

theorem txLoop_eq (oid : Nat) :
    ∀ (items : List CartItem) (ois : List OrderItem) (ps : List Product),
      txLoop oid items ois ps =
        (ois ++ orderItemsFor oid items, applyDeltas ps (negDeltas items)) := by
  intro items
  induction items with
  | nil =>
    intro ois ps
    simp [txLoop, orderItemsFor, negDeltas, applyDeltas]
  | cons item rest ih =>
    intro ois ps
    show txLoop oid rest (ois ++ [mkOrderItem oid item])
        (updateStock ps item.productId (-(item.quantity : Int))) = _
    rw [ih]
    simp [orderItemsFor, negDeltas, applyDeltas]

theorem posDeltas_foldl (items : List OrderItem) (ps : List Product) :
    items.foldl (fun acc it => updateStock acc it.productId (it.quantity : Int)) ps =
      applyDeltas ps (posDeltas items) := by
  simp [applyDeltas, posDeltas, List.foldl_map]

theorem cartQtyOf_cons (item : CartItem) (rest : List CartItem) (pid : Nat) :
    cartQtyOf (item :: rest) pid =
      (if item.productId == pid then item.quantity else 0) + cartQtyOf rest pid := by
  by_cases h : (item.productId == pid) = true
  · simp [cartQtyOf, List.filter_cons, h]
  · simp [cartQtyOf, List.filter_cons, h]

theorem orderQtyOf_cons (item : OrderItem) (rest : List OrderItem) (pid : Nat) :
    orderQtyOf (item :: rest) pid =
      (if item.productId == pid then item.quantity else 0) + orderQtyOf rest pid := by
  by_cases h : (item.productId == pid) = true
  · simp [orderQtyOf, List.filter_cons, h]
  · simp [orderQtyOf, List.filter_cons, h]

theorem deltaSum_negDeltas (items : List CartItem) (pid : Nat) :
    deltaSum (negDeltas items) pid = -(cartQtyOf items pid : Int) := by
  induction items with
  | nil => simp [negDeltas, deltaSum, cartQtyOf]
  | cons item rest ih =>
    show deltaSum ((item.productId, -(item.quantity : Int)) :: negDeltas rest) pid = _
    rw [deltaSum_cons, ih, cartQtyOf_cons]
    by_cases h : (item.productId == pid) = true
    · simp only [if_pos h]
      push_cast
      ring
    · simp only [if_neg h]
      push_cast
      ring

theorem deltaSum_posDeltas (items : List OrderItem) (pid : Nat) :
    deltaSum (posDeltas items) pid = (orderQtyOf items pid : Int) := by
  induction items with
  | nil => simp [posDeltas, deltaSum, orderQtyOf]
  | cons item rest ih =>
    show deltaSum ((item.productId, (item.quantity : Int)) :: posDeltas rest) pid = _
    rw [deltaSum_cons, ih, orderQtyOf_cons]
    by_cases h : (item.productId == pid) = true
    · simp only [if_pos h]
      push_cast
      ring
    · simp only [if_neg h]
      push_cast
      ring

theorem createOrder_success_shape (db : DB) (uid : Nat) (a pm : String)
    (e : Except String Unit) (ha : a ≠ "") (hpm : pm ≠ "")
    (cart : Cart) (hc : findCart db uid = some cart)
    (hne : cart.items.length ≠ 0)
    (hok : checkStock db cart.items = .ok) :
    createOrder db uid a pm e =
      (successDB db uid a pm cart, .ok (newOrderOf db uid a pm cart)) := by
  simp only [createOrder, if_neg ha, if_neg hpm, hc, if_neg hne, hok, txLoop_eq]
  rfl

theorem createOrder_insufficient (db : DB) (uid : Nat) (a pm : String)
    (e : Except String Unit) (ha : a ≠ "") (hpm : pm ≠ "")
    (cart : Cart) (hc : findCart db uid = some cart)
    (hne : cart.items.length ≠ 0)
    (p : Product) (item : CartItem)
    (hk : checkStock db cart.items = .insufficient p item) :
    createOrder db uid a pm e =
      (db, .error (.ValidationError
        (insufficientStockMsg p.title p.stock item.quantity))) := by
  simp only [createOrder, if_neg ha, if_neg hpm, hc, if_neg hne, hk]

theorem createOrder_cases (db : DB) (uid : Nat) (a pm : String)
    (e : Except String Unit) :
    (∃ err, createOrder db uid a pm e = (db, .error err)) ∨
    (∃ cart, findCart db uid = some cart ∧ cart.items.length ≠ 0 ∧
      checkStock db cart.items = .ok ∧
      createOrder db uid a pm e =
        (successDB db uid a pm cart, .ok (newOrderOf db uid a pm cart))) := by
  by_cases ha : a = ""
  · exact .inl ⟨.ValidationError ("Shipping address is required"),
      by simp [createOrder, ha]⟩
  by_cases hpm : pm = ""
  · exact .inl ⟨.ValidationError ("Payment method is required"),
      by simp [createOrder, ha, hpm]⟩
  cases hc : findCart db uid with
  | none =>
    exact .inl ⟨.ValidationError ("Cart is empty"),
      by simp [createOrder, ha, hpm, hc]⟩
  | some cart =>
    by_cases hlen : cart.items.length = 0
    · exact .inl ⟨.ValidationError ("Cart is empty"),
        by simp [createOrder, ha, hpm, hc, hlen]⟩
    cases hok : checkStock db cart.items with
    | ok =>
      exact .inr ⟨cart, rfl, hlen, hok,
        createOrder_success_shape db uid a pm e ha hpm cart hc hlen hok⟩
    | missing =>
      exact .inl ⟨.InternalError, by simp [createOrder, ha, hpm, hc, hlen, hok]⟩
    | insufficient p item =>
      exact .inl ⟨.ValidationError
          (insufficientStockMsg p.title p.stock item.quantity),
        createOrder_insufficient db uid a pm e ha hpm cart hc hlen p item hok⟩

theorem cancelOrder_not_found (db : DB) (uid oid : Nat) (e : Except String Unit)
    (h : findOrder db oid uid = none) :
    cancelOrder db uid oid e = (db, .error (.NotFoundError ("Order not found"))) := by
  simp [cancelOrder, h]

theorem cancelOrder_bad_status (db : DB) (uid oid : Nat) (e : Except String Unit)
    (order : Order) (h : findOrder db oid uid = some order)
    (h1 : order.status ≠ .PENDING) (h2 : order.status ≠ .PROCESSING) :
    cancelOrder db uid oid e =
      (db, .error (.ValidationError ("Order cannot be cancelled at this stage"))) := by
  simp [cancelOrder, h, h1, h2]

theorem cancelOrder_success_shape (db : DB) (uid oid : Nat) (e : Except String Unit)
    (order : Order) (h : findOrder db oid uid = some order)
    (hs : order.status = .PENDING ∨ order.status = .PROCESSING) :
    cancelOrder db uid oid e =
      (cancelledDB db oid, .ok { order with status := .CANCELLED }) := by
  have hcond : ¬(order.status ≠ .PENDING ∧ order.status ≠ .PROCESSING) := by
    rcases hs with hs | hs <;> simp [hs]
  simp only [cancelOrder, h, if_neg hcond, cancelledDB, posDeltas_foldl]

theorem checkStock_ok_iff (db : DB) (items : List CartItem) :
    checkStock db items = .ok ↔
      ∀ it ∈ items, ∃ p, findProduct db it.productId = some p ∧
        (it.quantity : Int) ≤ p.stock := by
  induction items with
  | nil => simp [checkStock]
  | cons item rest ih =>
    rw [List.forall_mem_cons]
    cases hf : findProduct db item.productId with
    | none =>
      constructor
      · intro h
        simp only [checkStock, hf] at h
        exact absurd h (by simp)
      · intro hall
        obtain ⟨p', hp', _⟩ := hall.1
        cases hp'
    | some p =>
      by_cases hq : (item.quantity : Int) > p.stock
      · constructor
        · intro h
          simp only [checkStock, hf, if_pos hq] at h
          exact absurd h (by simp)
        · intro hall
          obtain ⟨p', hp', hle⟩ := hall.1
          cases hp'
          omega
      · simp only [checkStock, hf, if_neg hq]
        rw [ih]
        constructor
        · intro hrest
          exact ⟨⟨p, rfl, by omega⟩, hrest⟩
        · intro hall
          exact hall.2

theorem checkStock_first_insufficient (db : DB) (item : CartItem)
    (rest : List CartItem) (p : Product)
    (hp : findProduct db item.productId = some p)
    (hq : p.stock < (item.quantity : Int)) :
    ∀ pre : List CartItem,
      (∀ it ∈ pre, ∃ q, findProduct db it.productId = some q ∧
        (it.quantity : Int) ≤ q.stock) →
      checkStock db (pre ++ item :: rest) = .insufficient p item := by
  intro pre
  induction pre with
  | nil =>
    intro _
    simp [checkStock, hp, if_pos hq]
  | cons x xs ih =>
    intro hpre
    obtain ⟨q, hq1, hq2⟩ := hpre x (by simp)
    have hnot : ¬((x.quantity : Int) > q.stock) := by omega
    simp only [List.cons_append, checkStock, hq1, if_neg hnot]
    exact ih (fun it hit => hpre it (by simp [hit]))

theorem checkStock_not_ok (db : DB) (items : List CartItem) (it : CartItem)
    (hit : it ∈ items) (p : Product)
    (hp : findProduct db it.productId = some p)
    (h : p.stock < (it.quantity : Int)) :
    checkStock db items ≠ .ok := by
  intro hok
  obtain ⟨q, hq1, hq2⟩ := (checkStock_ok_iff db items).1 hok it hit
  rw [hp] at hq1
  cases hq1
  omega

theorem find?_applyDeltas (ps : List Product) (ds : Deltas) (pid : Nat) :
    (applyDeltas ps ds).find? (fun p => p.id == pid) =
      (ps.find? (fun p => p.id == pid)).map
        (fun p => { p with stock := p.stock + deltaSum ds p.id }) := by
  rw [applyDeltas_eq]
  exact find?_map_comm
    (fun p => { p with stock := p.stock + deltaSum ds p.id })
    (fun p => p.id == pid) (fun p => rfl) ps

theorem find?_clearCartItems (carts : List Cart) (cid uid : Nat) :
    (clearCartItems carts cid).find? (fun c => c.userId == uid) =
      (carts.find? (fun c => c.userId == uid)).map
        (fun c => if c.id == cid then { c with items := [] } else c) := by
  apply find?_map_comm
  intro c
  by_cases h : c.id = cid
  · simp [h]
  · simp [h]

theorem find?_cancelStatus (orders : List Order) (oid oid2 uid : Nat) :
    ((orders.map (fun o => if o.id == oid then
        { o with status := OrderStatus.CANCELLED } else o)).find?
      (fun o => o.id == oid2 && o.userId == uid)) =
      ((orders.find? (fun o => o.id == oid2 && o.userId == uid)).map
        (fun o => if o.id == oid then { o with status := OrderStatus.CANCELLED } else o)) := by
  apply find?_map_comm
  intro o
  by_cases h : o.id = oid
  · simp [h]
  · simp [h]

theorem foldl_add_map (f : CartItem → Price) :
    ∀ (l : List CartItem) (a : Price),
      l.foldl (fun s it => s + f it) a = a + (l.map f).sum := by
  intro l
  induction l with
  | nil =>
    intro a
    simp
  | cons x xs ih =>
    intro a
    simp [ih, add_assoc]

theorem cartTotal_eq_sum (items : List CartItem) :
    cartTotal items =
      (items.map (fun it => it.price * (it.quantity : Price))).sum := by
  have h := foldl_add_map (fun it => it.price * (it.quantity : Price)) items 0
  simpa [cartTotal] using h

theorem sumItems_orderItemsFor (oid : Nat) (items : List CartItem) :
    sumItems (orderItemsFor oid items) =
      (items.map (fun it => it.price * (it.quantity : Price))).sum := by
  simp only [sumItems, orderItemsFor, List.map_map]
  rfl

theorem newOrder_total_eq (db : DB) (uid : Nat) (a pm : String) (cart : Cart) :
    (newOrderOf db uid a pm cart).totalAmount =
      sumItems (orderItemsFor db.nextOrderId cart.items) := by
  rw [newOrderOf, sumItems_orderItemsFor, cartTotal_eq_sum]

theorem itemsOfOrder_fresh (db : DB) (uid : Nat) (a pm : String) (cart : Cart)
    (hfresh : ∀ it ∈ db.orderItems, it.orderId < db.nextOrderId) :
    itemsOfOrder (successDB db uid a pm cart) db.nextOrderId =
      orderItemsFor db.nextOrderId cart.items := by
  show (db.orderItems ++ orderItemsFor db.nextOrderId cart.items).filter
      (fun it => it.orderId == db.nextOrderId) = _
  rw [List.filter_append]
  have h1 : db.orderItems.filter (fun it => it.orderId == db.nextOrderId) = [] := by
    rw [List.filter_eq_nil_iff]
    intro it hit
    have := hfresh it hit
    simp only [Nat.beq_eq_true_eq]
    omega
  have h2 : (orderItemsFor db.nextOrderId cart.items).filter
      (fun it => it.orderId == db.nextOrderId) = orderItemsFor db.nextOrderId cart.items := by
    rw [List.filter_eq_self]
    intro it hit
    simp only [orderItemsFor, List.mem_map] at hit
    obtain ⟨c, _, rfl⟩ := hit
    simp [mkOrderItem]
  rw [h1, h2, List.nil_append]

theorem itemsOfOrder_old (db : DB) (uid : Nat) (a pm : String) (cart : Cart)
    (oid : Nat) (hold : oid ≠ db.nextOrderId) :
    itemsOfOrder (successDB db uid a pm cart) oid = itemsOfOrder db oid := by
  show (db.orderItems ++ orderItemsFor db.nextOrderId cart.items).filter
      (fun it => it.orderId == oid) = _
  rw [List.filter_append]
  have h2 : (orderItemsFor db.nextOrderId cart.items).filter
      (fun it => it.orderId == oid) = [] := by
    rw [List.filter_eq_nil_iff]
    intro it hit
    simp only [orderItemsFor, List.mem_map] at hit
    obtain ⟨c, _, rfl⟩ := hit
    simp only [mkOrderItem, Nat.beq_eq_true_eq]
    omega
  rw [h2, List.append_nil]
  rfl

theorem findProduct_successDB (db : DB) (uid : Nat) (a pm : String) (cart : Cart)
    (pid : Nat) :
    findProduct (successDB db uid a pm cart) pid =
      (findProduct db pid).map
        (fun p => { p with stock := p.stock - (cartQtyOf cart.items p.id : Int) }) := by
  show (applyDeltas db.products (negDeltas cart.items)).find?
      (fun p => p.id == pid) = _
  rw [find?_applyDeltas]
  show Option.map _ (findProduct db pid) = _
  cases h : findProduct db pid with
  | none => rfl
  | some p =>
    simp only [Option.map_some']
    rw [deltaSum_negDeltas, sub_eq_add_neg]

theorem findCart_successDB (db : DB) (uid : Nat) (a pm : String) (cart : Cart)
    (uid2 : Nat) :
    findCart (successDB db uid a pm cart) uid2 =
      (findCart db uid2).map
        (fun c => if c.id == cart.id then { c with items := [] } else c) := by
  show (clearCartItems db.carts cart.id).find? (fun c => c.userId == uid2) = _
  rw [find?_clearCartItems]
  rfl

theorem findProduct_cancelledDB (db : DB) (oid pid : Nat) :
    findProduct (cancelledDB db oid) pid =
      (findProduct db pid).map
        (fun p => { p with
          stock := p.stock + (orderQtyOf (itemsOfOrder db oid) p.id : Int) }) := by
  show (applyDeltas db.products (posDeltas (itemsOfOrder db oid))).find?
      (fun p => p.id == pid) = _
  rw [find?_applyDeltas]
  show Option.map _ (findProduct db pid) = _
  cases h : findProduct db pid with
  | none => rfl
  | some p =>
    simp only [Option.map_some']
    rw [deltaSum_posDeltas]

theorem findOrder_cancelledDB (db : DB) (oid oid2 uid : Nat) :
    findOrder (cancelledDB db oid) oid2 uid =
      (findOrder db oid2 uid).map
        (fun o => if o.id == oid then { o with status := OrderStatus.CANCELLED }
          else o) := by
  show ((db.orders.map (fun o => if o.id == oid then
      { o with status := OrderStatus.CANCELLED } else o)).find?
    (fun o => o.id == oid2 && o.userId == uid)) = _
  exact find?_cancelStatus db.orders oid oid2 uid

theorem itemsOfOrder_cancelledDB (db : DB) (oid oid2 : Nat) :
    itemsOfOrder (cancelledDB db oid) oid2 = itemsOfOrder db oid2 := rfl

/-- C1: for every user whose cart contains exactly the items
`[(productA, qty 2, price 10), (productB, qty 1, price 5)]` with both
products at stock 5, `createOrder` succeeds with a PENDING order of
`totalAmount = 25` holding one line item per cart item, the stocks drop
to 3 and 4, and the cart is emptied. -/
theorem C1_place_order (db : DB) (uid : Nat) (a pm : String)
    (e : Except String Unit) (ha : a ≠ "") (hpm : pm ≠ "")
    (cart : Cart) (itA itB : CartItem) (prodA prodB : Product)
    (hcart : findCart db uid = some cart)
    (hitems : cart.items = [itA, itB])
    (hA : findProduct db itA.productId = some prodA)
    (hB : findProduct db itB.productId = some prodB)
    (hABne : itA.productId ≠ itB.productId)
    (hqA : itA.quantity = 2) (hpA : itA.price = 10) (hsA : prodA.stock = 5)
    (hqB : itB.quantity = 1) (hpB : itB.price = 5) (hsB : prodB.stock = 5) :
    ∃ db2 o,
      createOrder db uid a pm e = (db2, .ok o) ∧
      o.status = .PENDING ∧
      o.totalAmount = 25 ∧
      db2.orderItems = db.orderItems ++
        [mkOrderItem o.id itA, mkOrderItem o.id itB] ∧
      findProduct db2 itA.productId = some { prodA with stock := 3 } ∧
      findProduct db2 itB.productId = some { prodB with stock := 4 } ∧
      findCart db2 uid = some { cart with items := [] } := by
  have hA2 : db.products.find? (fun p => p.id == itA.productId) = some prodA := hA
  have hB2 : db.products.find? (fun p => p.id == itB.productId) = some prodB := hB
  have hidA : prodA.id = itA.productId := by
    simpa using List.find?_some hA2
  have hidB : prodB.id = itB.productId := by
    simpa using List.find?_some hB2
  have hlen : cart.items.length ≠ 0 := by
    rw [hitems]
    simp
  have hok : checkStock db cart.items = .ok := by
    rw [hitems]
    simp only [checkStock, hA, hB, hqA, hsA, hqB, hsB]
    norm_num
  have hshape := createOrder_success_shape db uid a pm e ha hpm cart hcart hlen hok
  have hqtyA : cartQtyOf cart.items itA.productId = 2 := by
    rw [hitems, cartQtyOf_cons, cartQtyOf_cons]
    have h1 : (itA.productId == itA.productId) = true := by
      simp
    have h2 : (itB.productId == itA.productId) = false := by
      rw [beq_eq_false_iff_ne]
      omega
    rw [h1, h2]
    simp [cartQtyOf, hqA]
  have hqtyB : cartQtyOf cart.items itB.productId = 1 := by
    rw [hitems, cartQtyOf_cons, cartQtyOf_cons]
    have h1 : (itA.productId == itB.productId) = false := by
      rw [beq_eq_false_iff_ne]
      omega
    have h2 : (itB.productId == itB.productId) = true := by
      simp
    rw [h1, h2]
    simp [cartQtyOf, hqB]
  refine ⟨successDB db uid a pm cart, newOrderOf db uid a pm cart, hshape,
    rfl, ?_, ?_, ?_, ?_, ?_⟩
  · show cartTotal cart.items = 25
    rw [cartTotal_eq_sum, hitems]
    simp [hpA, hqA, hpB, hqB]
    norm_num
  · show db.orderItems ++ orderItemsFor db.nextOrderId cart.items = _
    rw [hitems]
    rfl
  · rw [findProduct_successDB, hA, Option.map_some', hidA, hqtyA, hsA]
    have h3 : (5 : Int) - ((2 : Nat) : Int) = 3 := by norm_num
    rw [h3]
  · rw [findProduct_successDB, hB, Option.map_some', hidB, hqtyB, hsB]
    have h4 : (5 : Int) - ((1 : Nat) : Int) = 4 := by norm_num
    rw [h4]
  · rw [findCart_successDB, hcart, Option.map_some']
    congr 1
    simp

theorem C1_place_order_witness :
    ∃ db2 o,
      createOrder db1 1 "addr" "card" (.ok ()) = (db2, .ok o) ∧
      o.status = .PENDING ∧
      o.totalAmount = 25 ∧
      db2.orderItems = db1.orderItems ++
        [mkOrderItem o.id itA1, mkOrderItem o.id itB1] ∧
      findProduct db2 itA1.productId = some { prodA1 with stock := 3 } ∧
      findProduct db2 itB1.productId = some { prodB1 with stock := 4 } ∧
      findCart db2 1 = some { cart1 with items := [] } :=
  C1_place_order db1 1 "addr" "card" (.ok ()) (by decide) (by decide)
    cart1 itA1 itB1 prodA1 prodB1 rfl rfl rfl rfl (by decide)
    rfl rfl rfl rfl rfl rfl

/-- C2: every `createOrder` call either fails returning the state
unchanged, or succeeds and the order row, all its line items, every
per-product stock decrement and the cart clearing are all visible in the
returned state. -/
theorem C2_atomicity (db : DB) (uid : Nat) (a pm : String)
    (e : Except String Unit) :
    (∃ err, createOrder db uid a pm e = (db, .error err)) ∨
    (∃ db2 o cart,
      createOrder db uid a pm e = (db2, .ok o) ∧
      findCart db uid = some cart ∧
      db2.orders = db.orders ++ [o] ∧
      o.status = .PENDING ∧
      db2.orderItems = db.orderItems ++ orderItemsFor o.id cart.items ∧
      (∀ pid, findProduct db2 pid = (findProduct db pid).map
        (fun p => { p with stock := p.stock - (cartQtyOf cart.items p.id : Int) })) ∧
      findCart db2 uid = some { cart with items := [] }) := by
  rcases createOrder_cases db uid a pm e with ⟨err, h⟩ | ⟨cart, hc, hlen, hok, h⟩
  · exact .inl ⟨err, h⟩
  · refine .inr ⟨successDB db uid a pm cart, newOrderOf db uid a pm cart, cart,
      h, hc, rfl, rfl, rfl, ?_, ?_⟩
    · intro pid
      exact findProduct_successDB db uid a pm cart pid
    · rw [findCart_successDB, hc, Option.map_some']
      simp

/-- C9: the outcome of `createOrder` — the committed state and the
result returned to the caller — is identical whatever the email
provider does, and `sendEmail` maps provider failure to `false` (and
success to `true`) instead of raising. -/
theorem C9_email_fire_and_forget (db : DB) (uid : Nat) (a pm : String)
    (e1 e2 : Except String Unit) :
    createOrder db uid a pm e1 = createOrder db uid a pm e2 ∧
    (∀ msg, sendEmail (.error msg) = false) ∧
    (∀ u, sendEmail (.ok u) = true) := by
  refine ⟨rfl, fun msg => rfl, fun u => rfl⟩

/-- C7: `cancelOrder` fails with NotFoundError when no order with the
given id belongs to the caller, and with the invalid-transition
ValidationError when the order's status is neither PENDING nor
PROCESSING; in both cases the returned state is exactly the input
state. -/
theorem C7_cancel_failures (db : DB) (uid oid : Nat) (e : Except String Unit) :
    (findOrder db oid uid = none →
      cancelOrder db uid oid e =
        (db, .error (.NotFoundError ("Order not found")))) ∧
    (∀ o, findOrder db oid uid = some o →
      o.status ≠ .PENDING → o.status ≠ .PROCESSING →
      cancelOrder db uid oid e =
        (db, .error (.ValidationError ("Order cannot be cancelled at this stage")))) :=
  ⟨fun h => cancelOrder_not_found db uid oid e h,
   fun o h h1 h2 => cancelOrder_bad_status db uid oid e o h h1 h2⟩

theorem C7_cancel_failures_witness :
    cancelOrder dbShipped 1 99 (.ok ()) =
      (dbShipped, .error (.NotFoundError ("Order not found"))) ∧
    cancelOrder dbShipped 1 1 (.ok ()) =
      (dbShipped, .error (.ValidationError ("Order cannot be cancelled at this stage"))) :=
  ⟨(C7_cancel_failures dbShipped 1 99 (.ok ())).1 (by decide),
   (C7_cancel_failures dbShipped 1 1 (.ok ())).2 orderShipped (by decide)
     (by decide) (by decide)⟩

/-- C4 as stated is false: the insufficient-stock error does not report
the offending product's identifier.  Two states identical except for the
product's id (7 versus 8) produce the very same error, whose message is
built from the product's title: `"Widget has only 5 items in stock, but
you requested 6"`.  If the error reported the identifier, the two calls
would have to differ. -/
theorem C4_counterexample :
    (findProduct (widgetDB 7) 7).map (fun p => p.title) = some ("Widget") ∧
    (findProduct (widgetDB 8) 8).map (fun p => p.title) = some ("Widget") ∧
    createOrder (widgetDB 7) 1 "s" "c" (.ok ()) =
      ((widgetDB 7), .error (.ValidationError
        ("Widget has only 5 items in stock, but you requested 6"))) ∧
    createOrder (widgetDB 8) 1 "s" "c" (.ok ()) =
      ((widgetDB 8), .error (.ValidationError
        ("Widget has only 5 items in stock, but you requested 6"))) ∧
    (createOrder (widgetDB 7) 1 "s" "c" (.ok ())).2 =
      (createOrder (widgetDB 8) 1 "s" "c" (.ok ())).2 := by
  refine ⟨rfl, rfl, ?_, ?_, rfl⟩ <;> rfl

/-- C4 amended: when the first insufficient cart item (in cart order) is
`item` with product `p`, `createOrder` fails with the ValidationError
whose message names the product's title, its available stock and the
requested quantity, and the returned state is exactly the input state
(stock and cart untouched). -/
theorem C4_insufficient_stock (db : DB) (uid : Nat) (a pm : String)
    (e : Except String Unit) (ha : a ≠ "") (hpm : pm ≠ "")
    (cart : Cart) (hc : findCart db uid = some cart)
    (pre : List CartItem) (item : CartItem) (rest : List CartItem)
    (hsplit : cart.items = pre ++ item :: rest)
    (hpre : ∀ it ∈ pre, ∃ q, findProduct db it.productId = some q ∧
      (it.quantity : Int) ≤ q.stock)
    (p : Product) (hp : findProduct db item.productId = some p)
    (hq : p.stock < (item.quantity : Int)) :
    createOrder db uid a pm e =
      (db, .error (.ValidationError
        (insufficientStockMsg p.title p.stock item.quantity))) := by
  have hlen : cart.items.length ≠ 0 := by
    rw [hsplit]
    simp
  have hk : checkStock db cart.items = .insufficient p item := by
    rw [hsplit]
    exact checkStock_first_insufficient db item rest p hp hq pre hpre
  exact createOrder_insufficient db uid a pm e ha hpm cart hc hlen p item hk

theorem C4_insufficient_stock_witness :
    createOrder (widgetDB 7) 1 "s" "c" (.ok ()) =
      ((widgetDB 7), .error (.ValidationError
        (insufficientStockMsg "Widget" 5 6))) :=
  C4_insufficient_stock (widgetDB 7) 1 "s" "c" (.ok ()) (by decide) (by decide)
    (widgetCart 7) rfl []
    { id := 1, productId := 7, quantity := 6, price := 3 } [] rfl
    (by simp)
    { id := 7, title := "Widget", price := 3, stock := 5 } rfl (by decide)

theorem findOrder_ids (db : DB) (oid uid : Nat) (o : Order)
    (h : findOrder db oid uid = some o) : o.id = oid ∧ o.userId = uid := by
  have h2 : db.orders.find? (fun x => x.id == oid && x.userId == uid) = some o := h
  have h3 := List.find?_some h2
  simp at h3
  exact h3

theorem createOrder_ok_inv (db : DB) (uid : Nat) (a pm : String)
    (e : Except String Unit) (db2 : DB) (o : Order)
    (h : createOrder db uid a pm e = (db2, .ok o)) :
    ∃ cart, findCart db uid = some cart ∧ cart.items.length ≠ 0 ∧
      checkStock db cart.items = .ok ∧
      db2 = successDB db uid a pm cart ∧ o = newOrderOf db uid a pm cart := by
  rcases createOrder_cases db uid a pm e with ⟨err, he⟩ | ⟨cart, hc, hlen, hok, hs⟩
  · rw [he] at h
    exact absurd h (by simp)
  · rw [hs] at h
    injection h with h1 h2
    injection h2 with h3
    exact ⟨cart, hc, hlen, hok, h1.symm, h3.symm⟩

theorem findOrder_successDB_new (db : DB) (uid : Nat) (a pm : String)
    (cart : Cart) (hfresh : ∀ o2 ∈ db.orders, o2.id < db.nextOrderId) :
    findOrder (successDB db uid a pm cart) db.nextOrderId uid =
      some (newOrderOf db uid a pm cart) := by
  show (db.orders ++ [newOrderOf db uid a pm cart]).find?
      (fun o => o.id == db.nextOrderId && o.userId == uid) = _
  rw [List.find?_append]
  have h1 : db.orders.find?
      (fun o => o.id == db.nextOrderId && o.userId == uid) = none := by
    rw [List.find?_eq_none]
    intro o2 ho2
    have hlt := hfresh o2 ho2
    simp only [Bool.and_eq_true, Nat.beq_eq_true_eq, not_and]
    intro h
    exact absurd h (by omega)
  rw [h1]
  simp [newOrderOf]

theorem orderQtyOf_orderItemsFor (oid : Nat) (items : List CartItem) (pid : Nat) :
    orderQtyOf (orderItemsFor oid items) pid = cartQtyOf items pid := by
  induction items with
  | nil => rfl
  | cons it rest ih =>
    show orderQtyOf (mkOrderItem oid it :: orderItemsFor oid rest) pid = _
    rw [orderQtyOf_cons, cartQtyOf_cons, ih]
    rfl

/-- C6: cancelling an owned PENDING order sets its status to CANCELLED
and adds every line item's quantity back to its product's stock; a
second cancellation of the same order then fails with the
invalid-transition error; and a successful `createOrder` immediately
followed by `cancelOrder` of the created order returns every product's
stock to its pre-order value. -/
theorem C6_cancel_roundtrip :
    (∀ (db : DB) (uid oid : Nat) (e e2 : Except String Unit) (o : Order),
      findOrder db oid uid = some o → o.status = .PENDING →
      ∃ db2,
        cancelOrder db uid oid e = (db2, .ok { o with status := .CANCELLED }) ∧
        (∀ pid, findProduct db2 pid = (findProduct db pid).map
          (fun p => { p with stock := p.stock +
            (orderQtyOf (itemsOfOrder db oid) p.id : Int) })) ∧
        cancelOrder db2 uid oid e2 =
          (db2, .error (.ValidationError ("Order cannot be cancelled at this stage")))) ∧
    (∀ (db : DB) (uid : Nat) (a pm : String) (e e2 : Except String Unit)
        (db2 : DB) (o : Order),
      (∀ o2 ∈ db.orders, o2.id < db.nextOrderId) →
      (∀ it ∈ db.orderItems, it.orderId < db.nextOrderId) →
      createOrder db uid a pm e = (db2, .ok o) →
      ∃ db3 o2,
        cancelOrder db2 uid o.id e2 = (db3, .ok o2) ∧
        (∀ pid, (findProduct db3 pid).map (fun p => p.stock) =
          (findProduct db pid).map (fun p => p.stock))) := by
  constructor
  · intro db uid oid e e2 o hfind hst
    obtain ⟨hid, huid⟩ := findOrder_ids db oid uid o hfind
    refine ⟨cancelledDB db oid,
      cancelOrder_success_shape db uid oid e o hfind (.inl hst), ?_, ?_⟩
    · intro pid
      exact findProduct_cancelledDB db oid pid
    · have hfind2 : findOrder (cancelledDB db oid) oid uid =
          some { o with status := .CANCELLED } := by
        rw [findOrder_cancelledDB, hfind, Option.map_some']
        simp [hid]
      exact cancelOrder_bad_status (cancelledDB db oid) uid oid e2 _ hfind2
        (by simp) (by simp)
  · intro db uid a pm e e2 db2 o hfo hfi hok
    obtain ⟨cart, hc, hlen, hsok, hdb2, ho⟩ :=
      createOrder_ok_inv db uid a pm e db2 o hok
    subst hdb2
    subst ho
    have hfind2 : findOrder (successDB db uid a pm cart) db.nextOrderId uid =
        some (newOrderOf db uid a pm cart) :=
      findOrder_successDB_new db uid a pm cart hfo
    have hcancel := cancelOrder_success_shape (successDB db uid a pm cart) uid
      db.nextOrderId e2 (newOrderOf db uid a pm cart) hfind2 (.inl rfl)
    refine ⟨cancelledDB (successDB db uid a pm cart) db.nextOrderId,
      { newOrderOf db uid a pm cart with status := .CANCELLED }, hcancel, ?_⟩
    intro pid
    rw [findProduct_cancelledDB, findProduct_successDB,
      itemsOfOrder_fresh db uid a pm cart hfi]
    cases hfp : findProduct db pid with
    | none => rfl
    | some p =>
      simp only [Option.map_some']
      rw [orderQtyOf_orderItemsFor]
      simp

theorem C6_cancel_roundtrip_witness :
    (∃ db2,
      cancelOrder dbPending 1 1 (.ok ()) =
        (db2, .ok { orderPending with status := .CANCELLED }) ∧
      (∀ pid, findProduct db2 pid = (findProduct dbPending pid).map
        (fun p => { p with stock := p.stock +
          (orderQtyOf (itemsOfOrder dbPending 1) p.id : Int) })) ∧
      cancelOrder db2 1 1 (.ok ()) =
        (db2, .error (.ValidationError ("Order cannot be cancelled at this stage")))) ∧
    (∃ db3 o2,
      cancelOrder (successDB db1 1 "addr" "card" cart1) 1
        (newOrderOf db1 1 "addr" "card" cart1).id (.ok ()) = (db3, .ok o2) ∧
      (∀ pid, (findProduct db3 pid).map (fun p => p.stock) =
        (findProduct db1 pid).map (fun p => p.stock))) :=
  ⟨C6_cancel_roundtrip.1 dbPending 1 1 (.ok ()) (.ok ()) orderPending
    (by decide) (by decide),
   C6_cancel_roundtrip.2 db1 1 "addr" "card" (.ok ()) (.ok ())
     (successDB db1 1 "addr" "card" cart1) (newOrderOf db1 1 "addr" "card" cart1)
     (by decide) (by decide) rfl⟩

theorem findCart_mapItems (carts : List Cart) (uid : Nat)
    (f : List CartItem → List CartItem) :
    (carts.map (fun c => { c with items := f c.items })).find?
        (fun c => c.userId == uid) =
      (carts.find? (fun c => c.userId == uid)).map
        (fun c => { c with items := f c.items }) :=
  find?_map_comm (fun c => { c with items := f c.items })
    (fun c => c.userId == uid) (fun _ => rfl) carts

/-- C10: when the user's cart already holds an item for the product, a
further successful `addToCart` adds the requested quantity to that item
and overwrites its snapshot price with the product's *current* catalog
price (the stored price is the catalog price at the most recent
successful add, not the price at the first add). -/
theorem C10_add_to_cart_merge (db : DB) (uid pid qty : Nat)
    (hqty : qty ≠ 0)
    (product : Product) (hp : findProduct db pid = some product)
    (cart : Cart) (hc : findCart db uid = some cart)
    (existing : CartItem)
    (hex : cart.items.find? (fun it => it.productId == pid) = some existing)
    (h1 : (qty : Int) ≤ product.stock)
    (h2 : ((existing.quantity + qty : Nat) : Int) ≤ product.stock) :
    ∃ db2,
      addToCart db uid pid qty = (db2, .ok ()) ∧
      findCart db2 uid = some { cart with items := cart.items.map (bumpItem existing.id (existing.quantity + qty) product.price) } := by
  have hno1 : ¬((qty : Int) > product.stock) := by omega
  have hno2 : ¬(((existing.quantity + qty : Nat) : Int) > product.stock) := by
    omega
  have hmain : addToCart db uid pid qty =
      ({ db with carts := db.carts.map (fun c => { c with items := c.items.map (bumpItem existing.id (existing.quantity + qty) product.price) }) }, .ok ()) := by
    simp only [addToCart, if_neg hqty, hp, if_neg hno1, hc, hex, if_neg hno2]
    rfl
  refine ⟨_, hmain, ?_⟩
  have hc2 : db.carts.find? (fun c => c.userId == uid) = some cart := hc
  have step := findCart_mapItems db.carts uid
    (fun l => l.map (bumpItem existing.id (existing.quantity + qty) product.price))
  rw [hc2, Option.map_some'] at step
  exact step

theorem C10_add_to_cart_merge_witness :
    ∃ db2,
      addToCart dbAddCart 1 1 2 = (db2, .ok ()) ∧
      findCart db2 1 = some { cartAdd with items := [{ id := 1, productId := 1, quantity := 5, price := 15 }] } :=
  C10_add_to_cart_merge dbAddCart 1 1 2 (by decide)
    { id := 1, title := "A", price := 15, stock := 10 } rfl
    cartAdd rfl
    { id := 1, productId := 1, quantity := 3, price := 9 } rfl
    (by decide) (by decide)

theorem cartQtyOf_eq_zero (items : List CartItem) (x : Nat)
    (h : ∀ it ∈ items, it.productId ≠ x) : cartQtyOf items x = 0 := by
  unfold cartQtyOf
  rw [List.filter_eq_nil_iff.mpr ?_]
  · rfl
  · intro it hit
    simp only [Nat.beq_eq_true_eq]
    exact h it hit

theorem cartQtyOf_ne_zero_mem (items : List CartItem) (x : Nat)
    (h : cartQtyOf items x ≠ 0) : ∃ it ∈ items, it.productId = x := by
  by_contra hno
  push_neg at hno
  exact h (cartQtyOf_eq_zero items x hno)

theorem cartQtyOf_nodup_eq (x : Nat) (it : CartItem) :
    ∀ items : List CartItem, (items.map (fun i => i.productId)).Nodup →
      it ∈ items → it.productId = x → cartQtyOf items x = it.quantity := by
  intro items
  induction items with
  | nil =>
    intro _ hit _
    cases hit
  | cons a rest ih =>
    intro hnd hit hx
    rw [List.map_cons, List.nodup_cons] at hnd
    rw [cartQtyOf_cons]
    rcases List.mem_cons.mp hit with rfl | hmem
    · rw [if_pos (by simp [hx])]
      have hz : cartQtyOf rest x = 0 := by
        apply cartQtyOf_eq_zero
        intro b hb hbx
        apply hnd.1
        have hmem2 : b.productId ∈ rest.map (fun i => i.productId) :=
          List.mem_map_of_mem _ hb
        rw [hbx] at hmem2
        rw [hx]
        exact hmem2
      rw [hz]
      omega
    · have hax : (a.productId == x) = false := by
        rw [beq_eq_false_iff_ne]
        intro heq
        apply hnd.1
        have : it.productId ∈ rest.map (fun i => i.productId) :=
          List.mem_map_of_mem _ hmem
        rw [hx] at this
        rw [heq]
        exact this
      rw [hax]
      simp only [Bool.false_eq_true, if_false, Nat.zero_add]
      exact ih hnd.2 hmem hx

theorem applyDeltas_map_id (ps : List Product) (ds : Deltas) :
    (applyDeltas ps ds).map (fun p => p.id) = ps.map (fun p => p.id) := by
  rw [applyDeltas_eq, List.map_map]
  rfl

theorem stocksNonneg_applyDeltas_neg (db : DB) (items : List CartItem)
    (hnd : (items.map (fun it => it.productId)).Nodup)
    (hok : checkStock db items = .ok)
    (hpnd : productsNodup db) (h3 : stocksNonneg db) :
    ∀ p2 ∈ applyDeltas db.products (negDeltas items), 0 ≤ p2.stock := by
  intro p2 hp2
  rw [applyDeltas_eq] at hp2
  obtain ⟨p, hp, rfl⟩ := List.mem_map.mp hp2
  show 0 ≤ p.stock + deltaSum (negDeltas items) p.id
  rw [deltaSum_negDeltas]
  have hstock := h3 p hp
  by_cases hz : cartQtyOf items p.id = 0
  · rw [hz]
    omega
  · obtain ⟨it, hit, hx⟩ := cartQtyOf_ne_zero_mem items p.id hz
    have hq := cartQtyOf_nodup_eq p.id it items hnd hit hx
    obtain ⟨q, hfq, hle⟩ := (checkStock_ok_iff db items).1 hok it hit
    have hfq2 : db.products.find? (fun r => r.id == it.productId) = some q := hfq
    have hqmem : q ∈ db.products := List.mem_of_find?_eq_some hfq2
    have hqid : q.id = it.productId := by
      simpa using List.find?_some hfq2
    have hqp : q = p :=
      List.inj_on_of_nodup_map hpnd hqmem hp (by rw [hqid, hx])
    rw [hq]
    rw [hqp] at hle
    omega

theorem createOrder_preserves (db : DB) (uid : Nat) (a pm : String)
    (e : Except String Unit)
    (h1 : productsNodup db) (h2 : cartsNodup db) (h3 : stocksNonneg db) :
    productsNodup (createOrder db uid a pm e).1 ∧
      cartsNodup (createOrder db uid a pm e).1 ∧
      stocksNonneg (createOrder db uid a pm e).1 := by
  rcases createOrder_cases db uid a pm e with ⟨err, h⟩ | ⟨cart, hc, hlen, hok, h⟩
  · rw [h]
    exact ⟨h1, h2, h3⟩
  · rw [h]
    refine ⟨?_, ?_, ?_⟩
    · show ((applyDeltas db.products (negDeltas cart.items)).map
        (fun p => p.id)).Nodup
      rw [applyDeltas_map_id]
      exact h1
    · intro c2 hc2
      obtain ⟨c, hcmem, rfl⟩ := List.mem_map.mp hc2
      by_cases hcc : (c.id == cart.id) = true
      · simp only [if_pos hcc]
        simp
      · simp only [if_neg hcc]
        exact h2 c hcmem
    · have hnd : (cart.items.map (fun it => it.productId)).Nodup :=
        h2 cart (List.mem_of_find?_eq_some hc)
      exact stocksNonneg_applyDeltas_neg db cart.items hnd hok h1 h3

theorem cancelOrder_preserves (db : DB) (uid oid : Nat)
    (e : Except String Unit)
    (h1 : productsNodup db) (h2 : cartsNodup db) (h3 : stocksNonneg db) :
    productsNodup (cancelOrder db uid oid e).1 ∧
      cartsNodup (cancelOrder db uid oid e).1 ∧
      stocksNonneg (cancelOrder db uid oid e).1 := by
  cases hf : findOrder db oid uid with
  | none =>
    rw [cancelOrder_not_found db uid oid e hf]
    exact ⟨h1, h2, h3⟩
  | some o =>
    by_cases hs : o.status ≠ .PENDING ∧ o.status ≠ .PROCESSING
    · rw [cancelOrder_bad_status db uid oid e o hf hs.1 hs.2]
      exact ⟨h1, h2, h3⟩
    · have hs2 : o.status = .PENDING ∨ o.status = .PROCESSING := by
        by_cases hp : o.status = .PENDING
        · exact .inl hp
        · right
          by_cases hpr : o.status = .PROCESSING
          · exact hpr
          · exact absurd ⟨hp, hpr⟩ hs
      rw [cancelOrder_success_shape db uid oid e o hf hs2]
      refine ⟨?_, h2, ?_⟩
      · show ((applyDeltas db.products (posDeltas (itemsOfOrder db oid))).map
          (fun p => p.id)).Nodup
        rw [applyDeltas_map_id]
        exact h1
      · intro p2 hp2
        have hp3 : p2 ∈ applyDeltas db.products (posDeltas (itemsOfOrder db oid)) := hp2
        rw [applyDeltas_eq] at hp3
        obtain ⟨p, hp, rfl⟩ := List.mem_map.mp hp3
        show 0 ≤ p.stock + deltaSum (posDeltas (itemsOfOrder db oid)) p.id
        rw [deltaSum_posDeltas]
        have := h3 p hp
        omega

theorem runOps_preserves (ops : List Op) :
    ∀ db : DB, productsNodup db → cartsNodup db → stocksNonneg db →
      productsNodup (runOps db ops) ∧ cartsNodup (runOps db ops) ∧
        stocksNonneg (runOps db ops) := by
  induction ops with
  | nil =>
    intro db h1 h2 h3
    exact ⟨h1, h2, h3⟩
  | cons op rest ih =>
    intro db h1 h2 h3
    have hstep : productsNodup (applyOp db op) ∧ cartsNodup (applyOp db op) ∧
        stocksNonneg (applyOp db op) := by
      cases op with
      | place uid a pm => exact createOrder_preserves db uid a pm (.ok ()) h1 h2 h3
      | cancel uid oid => exact cancelOrder_preserves db uid oid (.ok ()) h1 h2 h3
    exact ih (applyOp db op) hstep.1 hstep.2.1 hstep.2.2

/-- C3: from any state whose product ids are unique (they are the
primary key), whose carts hold at most one item per product (the
invariant `addToCart` maintains by merging repeated products), and whose
stocks are all non-negative, any finite sequence of `createOrder` and
`cancelOrder` calls keeps every product's stock non-negative; moreover a
cart item requesting more than the available stock makes `createOrder`
fail with the state unchanged. -/
theorem C3_stock_nonneg (db : DB) (ops : List Op)
    (h1 : productsNodup db) (h2 : cartsNodup db) (h3 : stocksNonneg db) :
    stocksNonneg (runOps db ops) ∧
    (∀ (uid : Nat) (a pm : String) (e : Except String Unit) (cart : Cart)
        (it : CartItem) (p : Product),
      findCart db uid = some cart → it ∈ cart.items →
      findProduct db it.productId = some p → p.stock < (it.quantity : Int) →
      ∃ err, createOrder db uid a pm e = (db, .error err)) := by
  constructor
  · exact (runOps_preserves ops db h1 h2 h3).2.2
  · intro uid a pm e cart it p hc hit hp hlt
    rcases createOrder_cases db uid a pm e with ⟨err, h⟩ | ⟨cart2, hc2, hlen, hok, h⟩
    · exact ⟨err, h⟩
    · rw [hc] at hc2
      injection hc2 with hcc
      subst hcc
      exact absurd hok (checkStock_not_ok db cart.items it hit p hp hlt)

theorem C3_stock_nonneg_witness :
    stocksNonneg (runOps db1 [Op.place 1 "addr" "card", Op.cancel 1 1]) ∧
    (∀ (uid : Nat) (a pm : String) (e : Except String Unit) (cart : Cart)
        (it : CartItem) (p : Product),
      findCart db1 uid = some cart → it ∈ cart.items →
      findProduct db1 it.productId = some p → p.stock < (it.quantity : Int) →
      ∃ err, createOrder db1 uid a pm e = (db1, .error err)) :=
  C3_stock_nonneg db1 [Op.place 1 "addr" "card", Op.cancel 1 1]
    (show (db1.products.map (fun p => p.id)).Nodup by decide)
    (show ∀ c ∈ db1.carts, (c.items.map (fun it => it.productId)).Nodup by decide)
    (show ∀ p ∈ db1.products, 0 ≤ p.stock by decide)

theorem mem_orderItemsFor_orderId (oid : Nat) (items : List CartItem)
    (it : OrderItem) (h : it ∈ orderItemsFor oid items) : it.orderId = oid := by
  obtain ⟨c, _, rfl⟩ := List.mem_map.mp h
  rfl

theorem createOrder_fresh_totals (db : DB) (uid : Nat) (a pm : String)
    (e : Except String Unit) (hf : freshInv db) (ht : totalsInv db) :
    freshInv (createOrder db uid a pm e).1 ∧
      totalsInv (createOrder db uid a pm e).1 := by
  rcases createOrder_cases db uid a pm e with ⟨err, h⟩ | ⟨cart, hc, hlen, hok, h⟩
  · rw [h]
    exact ⟨hf, ht⟩
  · rw [h]
    refine ⟨⟨?_, ?_⟩, ?_⟩
    · intro o2 ho2
      show o2.id < db.nextOrderId + 1
      rcases List.mem_append.mp ho2 with hold | hnew
      · have := hf.1 o2 hold
        omega
      · have heq : o2 = newOrderOf db uid a pm cart := List.mem_singleton.mp hnew
        subst heq
        show db.nextOrderId < db.nextOrderId + 1
        omega
    · intro it hit
      show it.orderId < db.nextOrderId + 1
      rcases List.mem_append.mp hit with hold | hnew
      · have := hf.2 it hold
        omega
      · have := mem_orderItemsFor_orderId db.nextOrderId cart.items it hnew
        omega
    · intro o2 ho2
      rcases List.mem_append.mp ho2 with hold | hnew
      · have hlt := hf.1 o2 hold
        have hne : o2.id ≠ db.nextOrderId := by omega
        show o2.totalAmount =
          sumItems (itemsOfOrder (successDB db uid a pm cart) o2.id)
        rw [itemsOfOrder_old db uid a pm cart o2.id hne]
        exact ht o2 hold
      · have heq : o2 = newOrderOf db uid a pm cart := List.mem_singleton.mp hnew
        subst heq
        show (newOrderOf db uid a pm cart).totalAmount =
          sumItems (itemsOfOrder (successDB db uid a pm cart)
            (newOrderOf db uid a pm cart).id)
        rw [show (newOrderOf db uid a pm cart).id = db.nextOrderId from rfl,
          itemsOfOrder_fresh db uid a pm cart hf.2]
        exact newOrder_total_eq db uid a pm cart

theorem cancelOrder_fresh_totals (db : DB) (uid oid : Nat)
    (e : Except String Unit) (hf : freshInv db) (ht : totalsInv db) :
    freshInv (cancelOrder db uid oid e).1 ∧
      totalsInv (cancelOrder db uid oid e).1 := by
  cases hfo : findOrder db oid uid with
  | none =>
    rw [cancelOrder_not_found db uid oid e hfo]
    exact ⟨hf, ht⟩
  | some o =>
    by_cases hs : o.status ≠ .PENDING ∧ o.status ≠ .PROCESSING
    · rw [cancelOrder_bad_status db uid oid e o hfo hs.1 hs.2]
      exact ⟨hf, ht⟩
    · have hs2 : o.status = .PENDING ∨ o.status = .PROCESSING := by
        by_cases hp : o.status = .PENDING
        · exact .inl hp
        · right
          by_cases hpr : o.status = .PROCESSING
          · exact hpr
          · exact absurd ⟨hp, hpr⟩ hs
      rw [cancelOrder_success_shape db uid oid e o hfo hs2]
      refine ⟨⟨?_, ?_⟩, ?_⟩
      · intro o2 ho2
        obtain ⟨o3, ho3, rfl⟩ := List.mem_map.mp ho2
        by_cases hcc : (o3.id == oid) = true
        · simp only [if_pos hcc]
          exact hf.1 o3 ho3
        · simp only [if_neg hcc]
          exact hf.1 o3 ho3
      · exact hf.2
      · intro o2 ho2
        obtain ⟨o3, ho3, rfl⟩ := List.mem_map.mp ho2
        have hbase := ht o3 ho3
        by_cases hcc : (o3.id == oid) = true
        · simp only [if_pos hcc]
          exact hbase
        · simp only [if_neg hcc]
          exact hbase

theorem runOps_fresh_totals (ops : List Op) :
    ∀ db : DB, freshInv db → totalsInv db →
      freshInv (runOps db ops) ∧ totalsInv (runOps db ops) := by
  induction ops with
  | nil =>
    intro db hf ht
    exact ⟨hf, ht⟩
  | cons op rest ih =>
    intro db hf ht
    have hstep : freshInv (applyOp db op) ∧ totalsInv (applyOp db op) := by
      cases op with
      | place uid a pm => exact createOrder_fresh_totals db uid a pm (.ok ()) hf ht
      | cancel uid oid => exact cancelOrder_fresh_totals db uid oid (.ok ()) hf ht
    exact ih (applyOp db op) hstep.1 hstep.2

/-- C5: given the id-freshness invariant, every order in the store keeps
`totalAmount` equal to the sum of price × quantity over its line items
through any sequence of `createOrder`/`cancelOrder` calls (the total is
computed once at creation and never recalculated), and on a successful
`createOrder` the new order's line items are exact copies of the cart
items — so the total is the sum of the *cart-snapshot* prices times
quantities, independent of the catalog prices. -/
theorem C5_total_amount (db : DB) (ops : List Op)
    (hf : freshInv db) (ht : totalsInv db) :
    totalsInv (runOps db ops) ∧
    (∀ (uid : Nat) (a pm : String) (e : Except String Unit) (db2 : DB)
        (o : Order),
      createOrder db uid a pm e = (db2, .ok o) →
      ∃ cart, findCart db uid = some cart ∧
        itemsOfOrder db2 o.id = orderItemsFor o.id cart.items ∧
        o.totalAmount = sumItems (itemsOfOrder db2 o.id) ∧
        o.totalAmount = cartTotal cart.items) := by
  constructor
  · exact (runOps_fresh_totals ops db hf ht).2
  · intro uid a pm e db2 o hok
    obtain ⟨cart, hc, hlen, hsok, rfl, rfl⟩ :=
      createOrder_ok_inv db uid a pm e db2 o hok
    have hitems : itemsOfOrder (successDB db uid a pm cart) db.nextOrderId =
        orderItemsFor db.nextOrderId cart.items :=
      itemsOfOrder_fresh db uid a pm cart hf.2
    refine ⟨cart, hc, hitems, ?_, rfl⟩
    rw [show (newOrderOf db uid a pm cart).id = db.nextOrderId from rfl, hitems]
    exact newOrder_total_eq db uid a pm cart

theorem C5_total_amount_witness :
    totalsInv (runOps db1 [Op.place 1 "addr" "card", Op.cancel 1 1]) ∧
    (∀ (uid : Nat) (a pm : String) (e : Except String Unit) (db2 : DB)
        (o : Order),
      createOrder db1 uid a pm e = (db2, .ok o) →
      ∃ cart, findCart db1 uid = some cart ∧
        itemsOfOrder db2 o.id = orderItemsFor o.id cart.items ∧
        o.totalAmount = sumItems (itemsOfOrder db2 o.id) ∧
        o.totalAmount = cartTotal cart.items) :=
  C5_total_amount db1 [Op.place 1 "addr" "card", Op.cancel 1 1]
    (show (∀ o ∈ db1.orders, o.id < db1.nextOrderId) ∧
      (∀ it ∈ db1.orderItems, it.orderId < db1.nextOrderId) by decide)
    (show ∀ o ∈ db1.orders, o.totalAmount = sumItems (itemsOfOrder db1 o.id)
      by decide)

/-- Sequentially consistent rendition of the two-checkout race (C8 is
about truly concurrent executions, which this sequential embedding
cannot express): when the two `createOrder` calls for the last unit
execute in either serial order, the first succeeds, the second fails
with the insufficient-stock ValidationError, the final stock is 0 and
exactly one order exists. -/
theorem lastUnit_serialized :
    ∃ dbA o, createOrder dbLastUnit 1 "s" "c" (.ok ()) = (dbA, .ok o) ∧
      (createOrder dbA 2 "s" "c" (.ok ())).1 = dbA ∧
      (createOrder dbA 2 "s" "c" (.ok ())).2 = .error (.ValidationError
        ("L has only 0 items in stock, but you requested 1")) ∧
      (findProduct dbA 1).map (fun p => p.stock) = some 0 ∧
      dbA.orders.length = 1 := by
  refine ⟨_, _, rfl, rfl, rfl, rfl, rfl⟩
